import Mathlib

/-!
Verification of the HintQA RAG demo pipeline (`src/Code/demo.ipynb`).

The notebook's core logic consists of four functions:

* `generate_prompt(question, context)` — a pure f-string template;
* `generate_shots(dataset, num_of_shots)` — draws `num_of_shots` distinct
  instances via `random.sample` and renders each into a user/assistant
  message pair;
* `rag(dataset)` — the evaluation loop: for each instance builds
  `[system] ++ shots ++ [user target-prompt]`, calls the completion
  endpoint, collects predicted answers and ground truths in two parallel
  lists;
* `print_result_table(predicted, truths)` — a PrettyTable with header
  `['Predicted', 'Ground Truth']` and one row per zipped pair.

Randomness (`random.sample`) is modelled by an explicit oracle: a list of
pool indices `sel`, with the guarantees `random.sample` provides (length
`k`, in-bounds, pairwise distinct) taken as hypotheses.  The completion
endpoint is modelled as an oracle `endpoint : Nat → List Message →
Except PipeError (List String)` taking the call number and the message
sequence and returning either an error (RemoteInvocationError) or the
list of choice contents.  Python exceptions (`ValueError` from
`random.sample`, `IndexError` from `answers[0]` / `choices[0]`) are
modelled with `Except`.
-/

namespace HintQA

/-- Role/content pair modelling the notebook's message dicts
`\x7b"role": ..., "content": ...\x7d`. -/
structure Message where
  role : String
  content : String
deriving Repr, DecidableEq

/-- Wrapper for a hint string, mirroring `hinteval`'s `hint.hint` access. -/
structure Hint where
  hint : String
deriving Repr, DecidableEq

/-- Wrapper for an answer string, mirroring `answers[0].answer`. -/
structure Answer where
  answer : String
deriving Repr, DecidableEq

/-- Wrapper for a question string, mirroring `instance.question.question`. -/
structure Question where
  question : String
deriving Repr, DecidableEq

/-- One dataset instance: question, candidate answers, hints
(`hinteval.cores.Instance`). -/
structure Instance where
  question : Question
  answers : List Answer
  hints : List Hint
deriving Repr, DecidableEq

/-- Error taxonomy of the pipeline (spec §7): `samplingError` models the
`ValueError` raised by `random.sample` when the requested count exceeds
the population; `dataError` models `IndexError` on an empty `answers` or
`choices` list; `remoteError` models endpoint failure. -/
inductive PipeError where
  | samplingError
  | dataError
  | remoteError
deriving Repr, DecidableEq

/-- Embedding of `generate_prompt(question, context)`:
the notebook's f-string template rendered with Lean string interpolation. -/
def generate_prompt (question context : String) : String :=
  s!"Based on the context, answer the following question:\n    Context:\n    {context}\n\n    Question:\n    {question}\n\n    Answer:\n    "

/-- Context string of an instance: `'\n'.join([hint.hint for hint in hints])`. -/
def contextOf (inst : Instance) : String :=
  String.intercalate "\n" (inst.hints.map Hint.hint)

/-- First candidate answer, `instance.answers[0].answer`; the `IndexError`
on an empty answers list is modelled as a `dataError`. -/
def firstAnswer (inst : Instance) : Except PipeError String :=
  match inst.answers with
  | [] => .error .dataError
  | a :: _ => .ok a.answer

/-- Model of `random.sample(pool, k)` with the random draw supplied as an
index-list oracle `sel`: fails with the `ValueError` (`samplingError`)
exactly when `k` exceeds the population size, otherwise returns the
elements at the drawn positions, in draw order. -/
def randomSample (pool : List Instance) (k : Nat) (sel : List Nat) :
    Except PipeError (List Instance) :=
  if k ≤ pool.length then
    .ok (sel.filterMap fun i => pool[i]?)
  else
    .error .samplingError

/-- Rendering of one sampled exemplar inside `generate_shots`'s loop body:
a `user` message holding `generate_prompt(example_question, example_context)`
followed by an `assistant` message holding `example.answers[0].answer`. -/
def renderExemplar (ex : Instance) : Except PipeError (List Message) := do
  let example_question := ex.question.question
  let example_context := contextOf ex
  let example_answer ← firstAnswer ex
  let prompt := generate_prompt example_question example_context
  return [⟨"user", prompt⟩, ⟨"assistant", example_answer⟩]

/-- Embedding of `generate_shots(dataset, num_of_shots)`: draw
`num_of_shots` instances via `random.sample` (oracle `sel`), then render
each into a user/assistant pair, concatenated in draw order. -/
def generate_shots (dataset : List Instance) (sel : List Nat)
    (num_of_shots : Nat) : Except PipeError (List Message) := do
  let example_shots ← randomSample dataset num_of_shots sel
  let rendered ← example_shots.mapM renderExemplar
  return rendered.flatten

/-- System prompt hard-coded at the top of `rag`. -/
def system_prompt : String :=
  "You are a precise answering assistant. Always provide the shortest possible answer to factoid questions. Avoid explanations or additional details."

/-- Completion endpoint oracle: given the call number (iteration index of
the evaluation loop) and the message sequence sent, either a
RemoteInvocationError-style failure or the list of choice contents
(`[choice.message.content for choice in answer.choices]`). -/
def Endpoint : Type := Nat → List Message → Except PipeError (List String)

/-- Extraction `answer.choices[0].message.content.strip()`: `IndexError`
on an empty choices list is a `dataError`. -/
def extractPrediction (choices : List String) : Except PipeError String :=
  match choices with
  | [] => .error .dataError
  | c :: _ => .ok c.trim

/-- One iteration of `rag`'s loop body for the instance at position `i`:
builds `[system] ++ shots ++ [user target-prompt]`, reads the ground
truth `instance.answers[0].answer`, calls the endpoint, extracts the
trimmed prediction.  Returns (messages sent, predicted, ground truth). -/
def rag_step (dataset : List Instance) (endpoint : Endpoint)
    (sel : Nat → List Nat) (num_of_shots : Nat) (i : Nat) (inst : Instance) :
    Except PipeError (List Message × String × String) := do
  let example_shots ← generate_shots dataset (sel i) num_of_shots
  let messages := ⟨"system", system_prompt⟩ :: example_shots
  let instance_question := inst.question.question
  let instance_context := contextOf inst
  let instance_answer ← firstAnswer inst
  let prompt := generate_prompt instance_question instance_context
  let messages := messages ++ [⟨"user", prompt⟩]
  let choices ← endpoint i messages
  let predicted_answer ← extractPrediction choices
  return (messages, predicted_answer, instance_answer)

/-- Recursion over the remaining instances of `rag`'s `for` loop, carrying
the full dataset (exemplars are sampled pool-wide) and the current
iteration index.  On top of the two parallel result lists of the source it
also records the trace of message sequences sent to the endpoint. -/
def rag_go (dataset : List Instance) (endpoint : Endpoint)
    (sel : Nat → List Nat) (num_of_shots : Nat) :
    List Instance → Nat →
    Except PipeError (List (List Message) × List String × List String)
  | [], _ => .ok ([], [], [])
  | inst :: rest, i => do
    let (messages, predicted_answer, instance_answer) ←
      rag_step dataset endpoint sel num_of_shots i inst
    let (trace, predicted_answers, ground_truths) ←
      rag_go dataset endpoint sel num_of_shots rest (i + 1)
    return (messages :: trace,
            predicted_answer :: predicted_answers,
            instance_answer :: ground_truths)

/-- Instrumented embedding of `rag(dataset)`: the evaluation loop over the
whole pool, returning the endpoint-call trace together with the two
parallel lists.  `num_of_shots` is the exemplar count the loop passes to
`generate_shots` (the notebook passes the literal `5`, see `rag_notebook`). -/
def rag_traced (dataset : List Instance) (endpoint : Endpoint)
    (sel : Nat → List Nat) (num_of_shots : Nat) :
    Except PipeError (List (List Message) × List String × List String) :=
  rag_go dataset endpoint sel num_of_shots dataset 0

/-- Embedding of `rag(dataset)` proper: the pair
`(predicted_answers, ground_truths)` of the source, with the trace
projected away. -/
def rag (dataset : List Instance) (endpoint : Endpoint)
    (sel : Nat → List Nat) (num_of_shots : Nat) :
    Except PipeError (List String × List String) :=
  (rag_traced dataset endpoint sel num_of_shots).map fun r => (r.2.1, r.2.2)

/-- The notebook's literal call shape: `generate_shots(dataset, 5)` inside
the loop, i.e. five exemplars per instance. -/
def rag_notebook (dataset : List Instance) (endpoint : Endpoint)
    (sel : Nat → List Nat) : Except PipeError (List String × List String) :=
  rag dataset endpoint sel 5

/-- Model of the `PrettyTable` value built by `print_result_table`:
header labels and accumulated rows. -/
structure Table where
  field_names : List String
  rows : List (List String)
deriving Repr, DecidableEq

/-- Embedding of `print_result_table(predicted_answers, correct_answers)`:
a `PrettyTable(['Predicted', 'Ground Truth'])` to which the loop
`for predicted, ground in zip(...)` appends one row per zipped pair. -/
def print_result_table (predicted_answers correct_answers : List String) :
    Table :=
  (predicted_answers.zip correct_answers).foldl
    (fun table pg => { table with rows := table.rows ++ [[pg.1, pg.2]] })
    ⟨["Predicted", "Ground Truth"], []⟩

/-- Instance A of the spec's §8 end-to-end scenario. -/
def instA : Instance :=
  ⟨⟨"Capital of France?"⟩, [⟨"Paris"⟩], [⟨"Paris is the capital of France."⟩]⟩

/-- Instance B of the spec's §8 end-to-end scenario. -/
def instB : Instance :=
  ⟨⟨"Year WWII ended?"⟩, [⟨"1945"⟩], []⟩

/-- The two-instance pool of the spec's §8 end-to-end scenario. -/
def poolAB : List Instance := [instA, instB]

/-! ## Helper lemmas -/

/-- A message list made of user/assistant pairs, each pair internally
ordered user-then-assistant. -/
inductive ExemplarPairs : List Message → Prop
  | nil : ExemplarPairs []
  | cons (p a : String) (rest : List Message) :
      ExemplarPairs rest →
      ExemplarPairs (⟨"user", p⟩ :: ⟨"assistant", a⟩ :: rest)

/-- Postcondition of `random.sample(pool, k)` on its returned draw,
expressed on the index oracle: `k` positions, pairwise distinct, all
within the pool. -/
def ValidDraw (pool : List Instance) (k : Nat) (sel : List Nat) : Prop :=
  sel.length = k ∧ sel.Nodup ∧ ∀ i ∈ sel, i < pool.length

/-- Endpoint that always succeeds with a single fixed choice. -/
def okEndpoint (response : String) : Endpoint :=
  fun _ _ => .ok [response]

/-- Endpoint that always fails with a remote-invocation error. -/
def failEndpoint : Endpoint :=
  fun _ _ => .error .remoteError

/-- Draw oracle selecting no exemplar, the draw `random.sample(pool, 0)`
returns. -/
def emptyDraw : Nat → List Nat :=
  fun _ => []

/-- The message sequence sent for instance A in the zero-shot §8 run. -/
def msgsA : List Message :=
  [⟨"system", system_prompt⟩,
   ⟨"user", generate_prompt "Capital of France?"
     "Paris is the capital of France."⟩]

/-- The message sequence sent for instance B in the zero-shot §8 run. -/
def msgsB : List Message :=
  [⟨"system", system_prompt⟩,
   ⟨"user", generate_prompt "Year WWII ended?" ""⟩]

lemma renderExemplar_eq (ex : Instance) :
    renderExemplar ex = (firstAnswer ex).map fun a =>
      [⟨"user", generate_prompt ex.question.question (contextOf ex)⟩,
       ⟨"assistant", a⟩] := by
  cases h : firstAnswer ex <;>
    simp [renderExemplar, h, Except.map, bind, Except.bind, pure, Except.pure]

lemma firstAnswer_ok_of_ne_nil (inst : Instance) (h : inst.answers ≠ []) :
    ∃ a tl, inst.answers = a :: tl ∧ firstAnswer inst = .ok a.answer := by
  cases hh : inst.answers with
  | nil => exact absurd hh h
  | cons a tl => exact ⟨a, tl, rfl, by simp [firstAnswer, hh]⟩

lemma mapM_renderExemplar_ok (l : List Instance)
    (hans : ∀ inst ∈ l, inst.answers ≠ []) :
    ∃ rendered, l.mapM renderExemplar = .ok rendered := by
  induction l with
  | nil => exact ⟨[], rfl⟩
  | cons x xs ih =>
    obtain ⟨a, tl, hx, hfa⟩ :=
      firstAnswer_ok_of_ne_nil x (hans x (List.mem_cons_self x xs))
    obtain ⟨rest, hrest⟩ := ih fun inst h => hans inst (List.mem_cons_of_mem x h)
    refine ⟨[⟨"user", generate_prompt x.question.question (contextOf x)⟩,
             ⟨"assistant", a.answer⟩] :: rest, ?_⟩
    rw [List.mapM_cons, renderExemplar_eq, hfa, hrest]
    rfl

lemma mapM_renderExemplar_shape (l : List Instance)
    (rendered : List (List Message))
    (h : l.mapM renderExemplar = .ok rendered) :
    rendered.length = l.length ∧
    (∀ r ∈ rendered, r.length = 2) ∧
    ∀ (j : Nat) (inst : Instance), l[j]? = some inst →
      ∃ a tl, inst.answers = a :: tl ∧
        rendered[j]? = some
          [⟨"user", generate_prompt inst.question.question (contextOf inst)⟩,
           ⟨"assistant", a.answer⟩] := by
  induction l generalizing rendered with
  | nil =>
    have h0 : ([] : List Instance).mapM renderExemplar =
        Except.ok ([] : List (List Message)) := rfl
    rw [h0] at h
    cases h
    simp
  | cons x xs ih =>
    rw [List.mapM_cons] at h
    cases hx : renderExemplar x with
    | error e => rw [hx] at h; simp [bind, Except.bind] at h
    | ok r =>
      rw [hx] at h
      cases hxs : xs.mapM renderExemplar with
      | error e => rw [hxs] at h; simp [bind, Except.bind] at h
      | ok rs =>
        rw [hxs] at h
        simp [bind, Except.bind, pure, Except.pure] at h
        subst h
        rw [renderExemplar_eq] at hx
        cases hfa : firstAnswer x with
        | error e => rw [hfa] at hx; simp [Except.map] at hx
        | ok a =>
          rw [hfa] at hx
          simp [Except.map] at hx
          obtain ⟨hlen, h2, hcell⟩ := ih rs hxs
          refine ⟨by simp [hlen], ?_, ?_⟩
          · intro r hr
            rcases List.mem_cons.mp hr with h | h
            · subst h; rw [← hx]; rfl
            · exact h2 r h
          · intro j inst hj
            cases j with
            | zero =>
              rw [List.getElem?_cons_zero] at hj
              injection hj with hj
              subst hj
              cases hans : x.answers with
              | nil => simp [firstAnswer, hans] at hfa
              | cons a0 tl0 =>
                refine ⟨a0, tl0, rfl, ?_⟩
                simp [firstAnswer, hans] at hfa
                simp [← hx, hfa]
            | succ j =>
              simp at hj
              obtain ⟨a0, tl0, h1, h2⟩ := hcell j inst hj
              exact ⟨a0, tl0, h1, by simpa using h2⟩

lemma mapM_renderExemplar_pairs (l : List Instance)
    (rendered : List (List Message))
    (h : l.mapM renderExemplar = .ok rendered) :
    ExemplarPairs rendered.flatten := by
  induction l generalizing rendered with
  | nil =>
    have h0 : ([] : List Instance).mapM renderExemplar =
        Except.ok ([] : List (List Message)) := rfl
    rw [h0] at h
    cases h
    exact ExemplarPairs.nil
  | cons x xs ih =>
    rw [List.mapM_cons] at h
    cases hx : renderExemplar x with
    | error e => rw [hx] at h; simp [bind, Except.bind] at h
    | ok r =>
      rw [hx] at h
      cases hxs : xs.mapM renderExemplar with
      | error e => rw [hxs] at h; simp [bind, Except.bind] at h
      | ok rs =>
        rw [hxs] at h
        simp [bind, Except.bind, pure, Except.pure] at h
        subst h
        rw [renderExemplar_eq] at hx
        cases hfa : firstAnswer x with
        | error e => rw [hfa] at hx; simp [Except.map] at hx
        | ok a =>
          rw [hfa] at hx
          simp [Except.map] at hx
          rw [List.flatten_cons, ← hx]
          exact ExemplarPairs.cons _ _ _ (ih rs hxs)

lemma flatten_pairs_length (rendered : List (List Message))
    (h2 : ∀ r ∈ rendered, r.length = 2) :
    rendered.flatten.length = 2 * rendered.length := by
  induction rendered with
  | nil => simp
  | cons r rs ih =>
    rw [List.flatten_cons, List.length_append,
      h2 r (List.mem_cons_self r rs),
      ih fun r h => h2 r (List.mem_cons_of_mem _ h)]
    simp
    ring

lemma flatten_pairs_cells (rendered : List (List Message))
    (h2 : ∀ r ∈ rendered, r.length = 2) :
    ∀ (j : Nat) (u v : Message), rendered[j]? = some [u, v] →
      rendered.flatten[2 * j]? = some u ∧
      rendered.flatten[2 * j + 1]? = some v := by
  induction rendered with
  | nil => intro j u v hj; simp at hj
  | cons r rs ih =>
    intro j u v hj
    cases j with
    | zero =>
      rw [List.getElem?_cons_zero] at hj
      injection hj with hj
      subst hj
      simp
    | succ j =>
      rw [List.getElem?_cons_succ] at hj
      obtain ⟨h1, h2'⟩ := ih (fun r h => h2 r (List.mem_cons_of_mem _ h)) j u v hj
      have hr : r.length = 2 := h2 r (List.mem_cons_self r rs)
      constructor
      · rw [List.flatten_cons, List.getElem?_append_right (by omega)]
        rw [hr, show 2 * (j + 1) - 2 = 2 * j by omega]
        exact h1
      · rw [List.flatten_cons, List.getElem?_append_right (by omega)]
        rw [hr, show 2 * (j + 1) + 1 - 2 = 2 * j + 1 by omega]
        exact h2'

lemma filterMap_getElem_sel (d : List Instance) (sel : List Nat)
    (hb : ∀ i ∈ sel, i < d.length) :
    (sel.filterMap fun i => d[i]?).length = sel.length ∧
    ∀ (j i : Nat), sel[j]? = some i →
      (sel.filterMap fun i => d[i]?)[j]? = d[i]? := by
  induction sel with
  | nil => simp
  | cons s ss ih =>
    have hs : s < d.length := hb s (List.mem_cons_self s ss)
    obtain ⟨ihl, ihc⟩ := ih fun i h => hb i (List.mem_cons_of_mem _ h)
    have hinst : d[s]? = some (d[s]) := List.getElem?_eq_getElem hs
    have hfm : (s :: ss).filterMap (fun i => d[i]?) =
        d[s] :: ss.filterMap fun i => d[i]? := by
      simp [List.filterMap_cons, hinst]
    constructor
    · rw [hfm]; simp [ihl]
    · intro j i hj
      cases j with
      | zero =>
        rw [List.getElem?_cons_zero] at hj
        injection hj with hj
        subst hj
        rw [hfm, List.getElem?_cons_zero, hinst]
      | succ j =>
        rw [List.getElem?_cons_succ] at hj
        rw [hfm, List.getElem?_cons_succ]
        exact ihc j i hj

lemma generate_shots_ok_of (d : List Instance) (sel : List Nat) (k : Nat)
    (hk : k ≤ d.length) (rendered : List (List Message))
    (h : (sel.filterMap fun i => d[i]?).mapM renderExemplar = .ok rendered) :
    generate_shots d sel k = .ok rendered.flatten := by
  have hloop : List.mapM.loop renderExemplar
      (sel.filterMap fun i => d[i]?) [] = Except.ok rendered := h
  simp [generate_shots, randomSample, if_pos hk, bind, Except.bind, hloop,
    pure, Except.pure]

lemma generate_shots_ok_elim (d : List Instance) (sel : List Nat) (k : Nat)
    (msgs : List Message) (h : generate_shots d sel k = .ok msgs) :
    k ≤ d.length ∧
    ∃ rendered, (sel.filterMap fun i => d[i]?).mapM renderExemplar =
        .ok rendered ∧ msgs = rendered.flatten := by
  by_cases hk : k ≤ d.length
  · refine ⟨hk, ?_⟩
    rw [generate_shots] at h
    simp [randomSample, if_pos hk, bind, Except.bind] at h
    cases hm : List.mapM.loop renderExemplar
        (sel.filterMap fun i => d[i]?) [] with
    | error e => rw [hm] at h; simp at h
    | ok rendered =>
      rw [hm] at h
      simp [pure, Except.pure] at h
      exact ⟨rendered, hm, h.symm⟩
  · rw [generate_shots] at h
    simp [randomSample, if_neg hk, bind, Except.bind] at h

/-! ## Claim theorems for the exemplar sampler -/

/-- C4: for every pool and every `k` strictly greater than the pool size,
`generate_shots` fails with the sampling error (the `ValueError` raised by
`random.sample`) instead of returning a message list, regardless of the
draw oracle. -/
theorem generate_shots_oversample_fails (pool : List Instance)
    (sel : List Nat) (k : Nat) (hk : pool.length < k) :
    generate_shots pool sel k = .error .samplingError := by
  simp [generate_shots, randomSample, if_neg (Nat.not_le.mpr hk), bind,
    Except.bind]

/-- Witness for C4: on the two-instance pool, requesting three exemplars
fails with the sampling error. -/
theorem generate_shots_oversample_fails_witness :
    poolAB.length < 3 ∧
    generate_shots poolAB [0, 1, 2] 3 = .error .samplingError :=
  ⟨by decide, generate_shots_oversample_fails poolAB [0, 1, 2] 3 (by decide)⟩

/-- C5: for every pool and every `k ≤ |pool|`, with a draw satisfying
`random.sample`'s guarantee (`k` distinct in-bounds positions) and every
drawn instance carrying at least one candidate answer, `generate_shots`
succeeds and returns exactly `2 * k` messages forming `k`
user-then-assistant pairs; in particular `k = 0` yields the empty list. -/
theorem generate_shots_count (pool : List Instance) (sel : List Nat)
    (k : Nat) (hk : k ≤ pool.length) (hdraw : ValidDraw pool k sel)
    (hans : ∀ inst ∈ (sel.filterMap fun i => pool[i]?), inst.answers ≠ []) :
    ∃ msgs, generate_shots pool sel k = .ok msgs ∧
      msgs.length = 2 * k ∧ ExemplarPairs msgs ∧ (k = 0 → msgs = []) := by
  obtain ⟨hlen, -, hb⟩ := hdraw
  obtain ⟨rendered, hrendered⟩ :=
    mapM_renderExemplar_ok (sel.filterMap fun i => pool[i]?) hans
  obtain ⟨hrl, h2, -⟩ :=
    mapM_renderExemplar_shape (sel.filterMap fun i => pool[i]?) rendered
      hrendered
  obtain ⟨hfl, -⟩ := filterMap_getElem_sel pool sel hb
  have hmsglen : rendered.flatten.length = 2 * k := by
    rw [flatten_pairs_length rendered h2, hrl, hfl, hlen]
  refine ⟨rendered.flatten, generate_shots_ok_of pool sel k hk rendered
    hrendered, hmsglen, mapM_renderExemplar_pairs _ rendered hrendered, ?_⟩
  intro hk0
  subst hk0
  rw [Nat.mul_zero] at hmsglen
  exact List.length_eq_zero.mp hmsglen

/-- Witness for C5: drawing one exemplar (position 1) from the
two-instance pool yields exactly two messages. -/
theorem generate_shots_count_witness :
    1 ≤ poolAB.length ∧ ValidDraw poolAB 1 [1] ∧
    (∀ inst ∈ ([1].filterMap fun i => poolAB[i]?), inst.answers ≠ []) ∧
    ∃ msgs, generate_shots poolAB [1] 1 = .ok msgs ∧
      msgs.length = 2 * 1 ∧ ExemplarPairs msgs ∧ (1 = 0 → msgs = []) :=
  ⟨by decide, ⟨by decide, by decide, by decide⟩, by decide,
    generate_shots_count poolAB [1] 1 (by decide) ⟨by decide, by decide,
      by decide⟩ (by decide)⟩

/-- C6: whenever `generate_shots` succeeds and the draw is in bounds, the
exemplar drawn `j`-th from pool position `i` contributes the message pair
at positions `2j` and `2j+1`: a `user` message whose context is the
instance's hints joined by newline in hint-list order (empty hints give
the empty context) rendered through `generate_prompt`, then an `assistant`
message holding the instance's first candidate answer verbatim. -/
theorem generate_shots_renders_exemplars (pool : List Instance)
    (sel : List Nat) (k : Nat) (msgs : List Message)
    (h : generate_shots pool sel k = .ok msgs)
    (hb : ∀ i ∈ sel, i < pool.length) :
    ∀ (j i : Nat) (inst : Instance), sel[j]? = some i →
      pool[i]? = some inst →
      msgs[2 * j]? = some ⟨"user", generate_prompt inst.question.question
        (String.intercalate "\n" (inst.hints.map Hint.hint))⟩ ∧
      (∃ a tl, inst.answers = a :: tl ∧
        msgs[2 * j + 1]? = some ⟨"assistant", a.answer⟩) ∧
      (inst.hints = [] →
        String.intercalate "\n" (inst.hints.map Hint.hint) = "") := by
  obtain ⟨-, rendered, hrendered, hflat⟩ :=
    generate_shots_ok_elim pool sel k msgs h
  obtain ⟨-, h2, hcell⟩ :=
    mapM_renderExemplar_shape (sel.filterMap fun i => pool[i]?) rendered
      hrendered
  obtain ⟨-, hsel⟩ := filterMap_getElem_sel pool sel hb
  intro j i inst hj hi
  have hshot : (sel.filterMap fun i => pool[i]?)[j]? = some inst := by
    rw [hsel j i hj, hi]
  obtain ⟨a, tl, ha, hr⟩ := hcell j inst hshot
  obtain ⟨hu, hv⟩ := flatten_pairs_cells rendered h2 j _ _ hr
  subst hflat
  refine ⟨hu, ⟨a, tl, ha, hv⟩, fun hh => ?_⟩
  rw [hh]
  rfl

/-- Witness for C6: drawing instance A (position 0) renders its hint as
the context of a user message and "Paris" as the assistant message. -/
theorem generate_shots_renders_exemplars_witness :
    (∃ msgs, generate_shots poolAB [0] 1 = .ok msgs) ∧
    (∀ i ∈ [0], i < poolAB.length) ∧
    ∃ msgs, generate_shots poolAB [0] 1 = .ok msgs ∧
      msgs[0]? = some ⟨"user", generate_prompt "Capital of France?"
        "Paris is the capital of France."⟩ ∧
      msgs[1]? = some ⟨"assistant", "Paris"⟩ := by
  have hok : generate_shots poolAB [0] 1 =
      .ok [⟨"user", generate_prompt "Capital of France?"
              "Paris is the capital of France."⟩,
           ⟨"assistant", "Paris"⟩] := rfl
  have h := generate_shots_renders_exemplars poolAB [0] 1 _ hok
    (by decide) 0 0 instA rfl rfl
  obtain ⟨hu, ⟨a, tl, ha, hv⟩, -⟩ := h
  have ha' : a = ⟨"Paris"⟩ := by
    have hconv : instA.answers = [Answer.mk "Paris"] := rfl
    rw [hconv] at ha
    injection ha with h1 h2
    exact h1.symm
  subst ha'
  exact ⟨⟨_, hok⟩, by decide, _, hok, hu, hv⟩

/-! ## Helper lemmas for the evaluation loop -/

lemma rag_step_ok_elim (d : List Instance) (e : Endpoint)
    (sel : Nat → List Nat) (ns i : Nat) (inst : Instance)
    (msgs : List Message) (pred truth : String)
    (h : rag_step d e sel ns i inst = .ok (msgs, pred, truth)) :
    ∃ shots a tl choices c cs,
      generate_shots d (sel i) ns = .ok shots ∧
      inst.answers = a :: tl ∧ truth = a.answer ∧
      msgs = ⟨"system", system_prompt⟩ :: shots ++
        [⟨"user", generate_prompt inst.question.question (contextOf inst)⟩] ∧
      e i msgs = .ok choices ∧ choices = c :: cs ∧ pred = c.trim := by
  rw [rag_step] at h
  cases hs : generate_shots d (sel i) ns with
  | error e' => rw [hs] at h; simp [bind, Except.bind] at h
  | ok shots =>
    rw [hs] at h
    cases hfa : firstAnswer inst with
    | error e' => rw [hfa] at h; simp [bind, Except.bind] at h
    | ok ans =>
      rw [hfa] at h
      simp only [bind, Except.bind] at h
      split at h
      · simp at h
      · rename_i choices hend
        split at h
        · simp at h
        · rename_i predv hextract
          simp only [pure, Except.pure, Except.ok.injEq,
            Prod.mk.injEq] at h
          obtain ⟨h1, h2, h3⟩ := h
          cases choices with
          | nil => simp [extractPrediction] at hextract
          | cons c cs =>
            have hpredv : predv = c.trim := by
              simp [extractPrediction] at hextract
              exact hextract.symm
            cases hans : inst.answers with
            | nil => simp [firstAnswer, hans] at hfa
            | cons a tl =>
              have hasa : ans = a.answer := by
                simp [firstAnswer, hans] at hfa
                exact hfa.symm
              refine ⟨shots, a, tl, c :: cs, c, cs, rfl, rfl, ?_, ?_,
                ?_, rfl, ?_⟩
              · rw [← h3]; exact hasa
              · rw [← h1]
              · rw [← h1]
                convert hend using 2
              · rw [← h2, hpredv]

lemma rag_step_ok_of (d : List Instance) (e : Endpoint)
    (sel : Nat → List Nat) (ns i : Nat) (inst : Instance)
    (shots : List Message) (a : Answer) (tl : List Answer)
    (c : String) (cs : List String)
    (hshots : generate_shots d (sel i) ns = .ok shots)
    (ha : inst.answers = a :: tl)
    (hend : e i (⟨"system", system_prompt⟩ :: shots ++
      [⟨"user", generate_prompt inst.question.question (contextOf inst)⟩]) =
      .ok (c :: cs)) :
    rag_step d e sel ns i inst = .ok
      (⟨"system", system_prompt⟩ :: shots ++
        [⟨"user", generate_prompt inst.question.question (contextOf inst)⟩],
       c.trim, a.answer) := by
  rw [rag_step, hshots]
  simp only [bind, Except.bind, firstAnswer, ha]
  rw [hend]
  simp [extractPrediction, pure, Except.pure]

lemma rag_go_nil (d : List Instance) (e : Endpoint) (sel : Nat → List Nat)
    (ns i : Nat) : rag_go d e sel ns [] i = .ok ([], [], []) := rfl

lemma rag_go_cons (d : List Instance) (e : Endpoint) (sel : Nat → List Nat)
    (ns : Nat) (x : Instance) (rest : List Instance) (i : Nat)
    (m : List Message) (p t : String) (tr : List (List Message))
    (preds truths : List String)
    (hstep : rag_step d e sel ns i x = .ok (m, p, t))
    (hrest : rag_go d e sel ns rest (i + 1) = .ok (tr, preds, truths)) :
    rag_go d e sel ns (x :: rest) i =
      .ok (m :: tr, p :: preds, t :: truths) := by
  simp [rag_go, hstep, hrest, bind, Except.bind, pure, Except.pure]

lemma rag_go_spec (d : List Instance) (e : Endpoint) (sel : Nat → List Nat)
    (ns : Nat) : ∀ (l : List Instance) (i : Nat) (tr : List (List Message))
    (preds truths : List String),
    rag_go d e sel ns l i = .ok (tr, preds, truths) →
    tr.length = l.length ∧ preds.length = l.length ∧
    truths.length = l.length ∧
    ∀ (j : Nat) (inst : Instance), l[j]? = some inst →
      ∃ msgs pred truth, tr[j]? = some msgs ∧ preds[j]? = some pred ∧
        truths[j]? = some truth ∧
        rag_step d e sel ns (i + j) inst = .ok (msgs, pred, truth) := by
  intro l
  induction l with
  | nil =>
    intro i tr preds truths h
    rw [rag_go_nil] at h
    simp only [Except.ok.injEq, Prod.mk.injEq] at h
    obtain ⟨h1, h2, h3⟩ := h
    subst h1; subst h2; subst h3
    simp
  | cons x rest ih =>
    intro i tr preds truths h
    rw [rag_go] at h
    cases hstep : rag_step d e sel ns i x with
    | error err => rw [hstep] at h; simp [bind, Except.bind] at h
    | ok v =>
      obtain ⟨m, p, t⟩ := v
      rw [hstep] at h
      simp only [bind, Except.bind] at h
      cases hrest : rag_go d e sel ns rest (i + 1) with
      | error err => rw [hrest] at h; simp at h
      | ok w =>
        obtain ⟨tr', preds', truths'⟩ := w
        rw [hrest] at h
        simp only [pure, Except.pure, Except.ok.injEq, Prod.mk.injEq] at h
        obtain ⟨h1, h2, h3⟩ := h
        subst h1; subst h2; subst h3
        obtain ⟨ihl1, ihl2, ihl3, ihcell⟩ := ih (i + 1) tr' preds' truths'
          hrest
        refine ⟨by simp [ihl1], by simp [ihl2], by simp [ihl3], ?_⟩
        intro j inst hj
        cases j with
        | zero =>
          rw [List.getElem?_cons_zero] at hj
          injection hj with hj
          subst hj
          refine ⟨m, p, t, by simp, by simp, by simp, ?_⟩
          rw [Nat.add_zero]
          exact hstep
        | succ j =>
          rw [List.getElem?_cons_succ] at hj
          obtain ⟨msgs, pred, truth, hm, hp, ht, hs⟩ := ihcell j inst hj
          refine ⟨msgs, pred, truth, by simpa using hm, by simpa using hp,
            by simpa using ht, ?_⟩
          rw [show i + (j + 1) = i + 1 + j by omega]
          exact hs

lemma rag_go_abort (d : List Instance) (e : Endpoint)
    (sel : Nat → List Nat) (ns : Nat) :
    ∀ (l : List Instance) (base j : Nat) (inst : Instance) (err : PipeError),
    l[j]? = some inst →
    rag_step d e sel ns (base + j) inst = .error err →
    (∀ (j' : Nat) (inst' : Instance), j' < j → l[j']? = some inst' →
      ∃ v, rag_step d e sel ns (base + j') inst' = .ok v) →
    rag_go d e sel ns l base = .error err := by
  intro l
  induction l with
  | nil => intro base j inst err hinst; simp at hinst
  | cons x rest ih =>
    intro base j inst err hinst hfail hok
    cases j with
    | zero =>
      rw [List.getElem?_cons_zero] at hinst
      injection hinst with hinst
      subst hinst
      rw [Nat.add_zero] at hfail
      rw [rag_go, hfail]
      simp [bind, Except.bind]
    | succ j =>
      rw [List.getElem?_cons_succ] at hinst
      obtain ⟨v, hv⟩ := hok 0 x (Nat.succ_pos j) (by simp)
      obtain ⟨m, p, t⟩ := v
      rw [Nat.add_zero] at hv
      have hrest : rag_go d e sel ns rest (base + 1) = .error err := by
        refine ih (base + 1) j inst err hinst ?_ ?_
        · rw [show base + 1 + j = base + (j + 1) by omega]
          exact hfail
        · intro j' inst' hj' hinst'
          obtain ⟨w, hw⟩ := hok (j' + 1) inst'
            (Nat.succ_lt_succ hj') (by simpa using hinst')
          refine ⟨w, ?_⟩
          rw [show base + 1 + j' = base + (j' + 1) by omega]
          exact hw
      simp [rag_go, hv, bind, Except.bind, hrest]

lemma rag_step_congr (d : List Instance) (sel : Nat → List Nat)
    (ns i : Nat) (inst : Instance) (e e2 : Endpoint)
    (h : ∀ msgs, e2 i msgs = e i msgs) :
    rag_step d e2 sel ns i inst = rag_step d e sel ns i inst := by
  simp only [rag_step, h]

/-! ## Claim theorems for the evaluation loop -/

/-- C1: whenever the evaluation loop `rag` completes without failure over
a pool of `N` instances, it returns two parallel lists of length `N`, and
the ground-truth entry at every index `j` is the first candidate answer
of the pool instance at index `j`, in traversal order. -/
theorem rag_run_length_and_truths (d : List Instance) (e : Endpoint)
    (sel : Nat → List Nat) (ns : Nat) (preds truths : List String)
    (h : rag d e sel ns = .ok (preds, truths)) :
    preds.length = d.length ∧ truths.length = d.length ∧
    ∀ (j : Nat) (inst : Instance), d[j]? = some inst →
      truths[j]? = inst.answers.head?.map Answer.answer := by
  rw [rag] at h
  cases ht : rag_traced d e sel ns with
  | error err => rw [ht] at h; simp [Except.map] at h
  | ok r =>
    obtain ⟨tr, preds', truths'⟩ := r
    rw [ht] at h
    simp only [Except.map, Except.ok.injEq, Prod.mk.injEq] at h
    obtain ⟨h1, h2⟩ := h
    subst h1; subst h2
    rw [rag_traced] at ht
    obtain ⟨-, hl2, hl3, hcell⟩ :=
      rag_go_spec d e sel ns d 0 tr preds' truths' ht
    refine ⟨hl2, hl3, ?_⟩
    intro j inst hj
    obtain ⟨msgs, pred, truth, -, -, htj, hstep⟩ := hcell j inst hj
    obtain ⟨shots, a, tl, choices, c, cs, -, ha, htruth, -, -, -, -⟩ :=
      rag_step_ok_elim d e sel ns (0 + j) inst msgs pred truth hstep
    rw [htj, ha]
    simp [htruth]

/-- Witness for C1: a successful zero-shot run over the two-instance pool
returns two records whose ground truths are "Paris" and "1945". -/
theorem rag_run_length_and_truths_witness :
    rag poolAB (okEndpoint "x") emptyDraw 0 =
      .ok (["x".trim, "x".trim], ["Paris", "1945"]) ∧
    (["x".trim, "x".trim] : List String).length = poolAB.length ∧
    (["Paris", "1945"] : List String).length = poolAB.length ∧
    ["Paris", "1945"][0]? = instA.answers.head?.map Answer.answer := by
  have h : rag poolAB (okEndpoint "x") emptyDraw 0 =
      .ok (["x".trim, "x".trim], ["Paris", "1945"]) := rfl
  obtain ⟨h1, h2, hcell⟩ :=
    rag_run_length_and_truths poolAB (okEndpoint "x") emptyDraw 0 _ _ h
  exact ⟨h, h1, h2, hcell 0 instA rfl⟩

/-- C2: every message sequence the loop sends to the completion endpoint
starts with the system message, ends with the user message rendering the
target instance's question and joined hints, and holds only exemplar
user/assistant pairs (user-then-assistant) strictly in between. -/
theorem rag_message_ordering (d : List Instance) (e : Endpoint)
    (sel : Nat → List Nat) (ns : Nat) (tr : List (List Message))
    (preds truths : List String)
    (h : rag_traced d e sel ns = .ok (tr, preds, truths)) :
    ∀ (j : Nat) (msgs : List Message), tr[j]? = some msgs →
      ∃ inst shots, d[j]? = some inst ∧ ExemplarPairs shots ∧
        msgs = ⟨"system", system_prompt⟩ :: (shots ++
          [⟨"user",
            generate_prompt inst.question.question (contextOf inst)⟩]) := by
  rw [rag_traced] at h
  obtain ⟨hl1, -, -, hcell⟩ := rag_go_spec d e sel ns d 0 tr preds truths h
  intro j msgs hj
  have hjlt : j < tr.length := by
    by_contra hge
    rw [List.getElem?_eq_none (Nat.le_of_not_lt hge)] at hj
    cases hj
  have hd : j < d.length := by rw [← hl1]; exact hjlt
  have hdj : d[j]? = some (d[j]) := List.getElem?_eq_getElem hd
  obtain ⟨msgs', pred, truth, hm, -, -, hstep⟩ := hcell j _ hdj
  rw [hj] at hm
  injection hm with hm
  subst hm
  obtain ⟨shots, a, tl, choices, c, cs, hshots, -, -, hmsgs, -, -, -⟩ :=
    rag_step_ok_elim d e sel ns (0 + j) _ msgs pred truth hstep
  obtain ⟨-, rendered, hrnd, hflat⟩ :=
    generate_shots_ok_elim d (sel (0 + j)) ns shots hshots
  refine ⟨d[j], shots, hdj, ?_, by rw [hmsgs, List.cons_append]⟩
  rw [hflat]
  exact mapM_renderExemplar_pairs _ rendered hrnd

/-- Witness for C2: the first message sequence of the zero-shot §8 run
decomposes as system message, empty exemplar block, target user message. -/
theorem rag_message_ordering_witness :
    rag_traced poolAB (okEndpoint "x") emptyDraw 0 =
      .ok ([msgsA, msgsB], ["x".trim, "x".trim], ["Paris", "1945"]) ∧
    [msgsA, msgsB][0]? = some msgsA ∧
    ∃ inst shots, poolAB[0]? = some inst ∧ ExemplarPairs shots ∧
      msgsA = ⟨"system", system_prompt⟩ :: (shots ++
        [⟨"user",
          generate_prompt inst.question.question (contextOf inst)⟩]) := by
  have h : rag_traced poolAB (okEndpoint "x") emptyDraw 0 =
      .ok ([msgsA, msgsB], ["x".trim, "x".trim], ["Paris", "1945"]) := rfl
  exact ⟨h, rfl,
    rag_message_ordering poolAB (okEndpoint "x") emptyDraw 0 _ _ _ h 0
      msgsA rfl⟩

/-- C7: if processing one instance fails, the loop aborts there: the run
returns the bare error — the partial records accumulated before the
failure are discarded — and the outcome is independent of the endpoint's
behaviour on any later instance. -/
theorem rag_aborts_on_failure (d : List Instance) (e : Endpoint)
    (sel : Nat → List Nat) (ns j : Nat) (inst : Instance) (err : PipeError)
    (hinst : d[j]? = some inst)
    (hfail : rag_step d e sel ns j inst = .error err)
    (hok : ∀ (j' : Nat) (inst' : Instance), j' < j → d[j']? = some inst' →
      ∃ v, rag_step d e sel ns j' inst' = .ok v) :
    rag d e sel ns = .error err ∧
    ∀ e2 : Endpoint, (∀ i, i ≤ j → ∀ msgs, e2 i msgs = e i msgs) →
      rag d e2 sel ns = .error err := by
  have habort : rag_go d e sel ns d 0 = .error err := by
    refine rag_go_abort d e sel ns d 0 j inst err hinst ?_ ?_
    · rw [Nat.zero_add]; exact hfail
    · intro j' inst' hj' hinst'
      obtain ⟨v, hv⟩ := hok j' inst' hj' hinst'
      refine ⟨v, ?_⟩
      rw [Nat.zero_add]
      exact hv
  constructor
  · rw [rag, rag_traced, habort]; rfl
  · intro e2 he2
    have habort2 : rag_go d e2 sel ns d 0 = .error err := by
      refine rag_go_abort d e2 sel ns d 0 j inst err hinst ?_ ?_
      · rw [Nat.zero_add,
          rag_step_congr d sel ns j inst e e2 (he2 j (le_refl j))]
        exact hfail
      · intro j' inst' hj' hinst'
        obtain ⟨v, hv⟩ := hok j' inst' hj' hinst'
        refine ⟨v, ?_⟩
        rw [Nat.zero_add,
          rag_step_congr d sel ns j' inst' e e2 (he2 j' (le_of_lt hj'))]
        exact hv
    rw [rag, rag_traced, habort2]; rfl

/-- Witness for C7: an endpoint failing on the very first instance makes
the whole run return the remote error, with no records. -/
theorem rag_aborts_on_failure_witness :
    poolAB[0]? = some instA ∧
    rag_step poolAB failEndpoint emptyDraw 0 0 instA =
      .error .remoteError ∧
    rag poolAB failEndpoint emptyDraw 0 = .error .remoteError := by
  have h1 : poolAB[0]? = some instA := rfl
  have h2 : rag_step poolAB failEndpoint emptyDraw 0 0 instA =
      .error .remoteError := rfl
  exact ⟨h1, h2, (rag_aborts_on_failure poolAB failEndpoint emptyDraw 0 0
    instA .remoteError h1 h2
    fun j' inst' hj' _ => absurd hj' (Nat.not_lt_zero j')).1⟩

/-- C3: on the §8 two-instance pool with zero shots, any run against an
endpoint that always answers issues exactly the two completion calls
`msgsA` and `msgsB` (in that order), each of exactly two messages (system
plus final user), and returns ground truths `["Paris", "1945"]` in pool
order regardless of the predicted text. -/
theorem rag_zero_shot_scenario (e : Endpoint) (sel : Nat → List Nat)
    (hsel : ∀ i, sel i = [])
    (he : ∀ (i : Nat) (msgs : List Message),
      ∃ c cs, e i msgs = .ok (c :: cs)) :
    ∃ c0 cs0 c1 cs1,
      e 0 msgsA = .ok (c0 :: cs0) ∧ e 1 msgsB = .ok (c1 :: cs1) ∧
      rag_traced poolAB e sel 0 =
        .ok ([msgsA, msgsB], [c0.trim, c1.trim], ["Paris", "1945"]) ∧
      msgsA.length = 2 ∧ msgsB.length = 2 := by
  obtain ⟨c0, cs0, h0⟩ := he 0 msgsA
  obtain ⟨c1, cs1, h1⟩ := he 1 msgsB
  have hshotsA : generate_shots poolAB (sel 0) 0 = .ok [] := by
    rw [hsel 0]; exact rfl
  have hshotsB : generate_shots poolAB (sel 1) 0 = .ok [] := by
    rw [hsel 1]; exact rfl
  have h0' : e 0 (⟨"system", system_prompt⟩ :: ([] : List Message) ++
      [⟨"user", generate_prompt instA.question.question
        (contextOf instA)⟩]) = .ok (c0 :: cs0) := h0
  have h1' : e 1 (⟨"system", system_prompt⟩ :: ([] : List Message) ++
      [⟨"user", generate_prompt instB.question.question
        (contextOf instB)⟩]) = .ok (c1 :: cs1) := h1
  have hstepA : rag_step poolAB e sel 0 0 instA =
      .ok (msgsA, c0.trim, "Paris") :=
    rag_step_ok_of poolAB e sel 0 0 instA [] ⟨"Paris"⟩ [] c0 cs0 hshotsA
      rfl h0'
  have hstepB : rag_step poolAB e sel 0 1 instB =
      .ok (msgsB, c1.trim, "1945") :=
    rag_step_ok_of poolAB e sel 0 1 instB [] ⟨"1945"⟩ [] c1 cs1 hshotsB
      rfl h1'
  have hgoB : rag_go poolAB e sel 0 [instB] 1 =
      .ok ([msgsB], [c1.trim], ["1945"]) :=
    rag_go_cons poolAB e sel 0 instB [] 1 msgsB c1.trim "1945" [] [] []
      hstepB (rag_go_nil poolAB e sel 0 2)
  have hgoA : rag_go poolAB e sel 0 [instA, instB] 0 =
      .ok ([msgsA, msgsB], [c0.trim, c1.trim], ["Paris", "1945"]) :=
    rag_go_cons poolAB e sel 0 instA [instB] 0 msgsA c0.trim "Paris"
      [msgsB] [c1.trim] ["1945"] hstepA hgoB
  exact ⟨c0, cs0, c1, cs1, h0, h1, hgoA, rfl, rfl⟩

/-- Witness for C3: the always-succeeding endpoint realises the zero-shot
scenario run. -/
theorem rag_zero_shot_scenario_witness :
    (∀ i, emptyDraw i = ([] : List Nat)) ∧
    ∃ c0 cs0 c1 cs1,
      okEndpoint "x" 0 msgsA = .ok (c0 :: cs0) ∧
      okEndpoint "x" 1 msgsB = .ok (c1 :: cs1) ∧
      rag_traced poolAB (okEndpoint "x") emptyDraw 0 =
        .ok ([msgsA, msgsB], [c0.trim, c1.trim], ["Paris", "1945"]) ∧
      msgsA.length = 2 ∧ msgsB.length = 2 :=
  ⟨fun _ => rfl, rag_zero_shot_scenario (okEndpoint "x") emptyDraw
    (fun _ => rfl) (fun _ _ => ⟨"x", [], rfl⟩)⟩

/-! ## Claim theorems for the prompt builder and the reporter -/

/-- C8: `generate_prompt` renders, for every question and context
(including empty strings), the one fixed template with the context block
strictly before the question block and the "Answer:" cue trailing at the
end (only the template's closing indentation follows it).  The equality
holds for every input, which is the pure-function/determinism property:
the output is a function of `(question, context)` alone. -/
theorem generate_prompt_template (question context : String) :
    generate_prompt question context =
      "Based on the context, answer the following question:\n    Context:\n    "
        ++ context ++ "\n\n    Question:\n    " ++ question
        ++ "\n\n    Answer:\n    " ∧
    ∃ s, generate_prompt question context = s ++ "Answer:\n    " := by
  have hleft : generate_prompt question context =
      "Based on the context, answer the following question:\n    Context:\n    "
        ++ context ++ "\n\n    Question:\n    " ++ question
        ++ "\n\n    Answer:\n    " := rfl
  refine ⟨hleft,
    ⟨"Based on the context, answer the following question:\n    Context:\n    "
      ++ context ++ "\n\n    Question:\n    " ++ question ++ "\n\n    ", ?_⟩⟩
  rw [hleft]
  have hlit : ("\n\n    " : String) ++ "Answer:\n    " =
      "\n\n    Answer:\n    " := rfl
  simp [String.append_assoc, hlit]

lemma print_table_foldl (pairs : List (String × String))
    (hdr : List String) (rs : List (List String)) :
    pairs.foldl (fun (table : Table) (pg : String × String) => { table with
        rows := table.rows ++ [[pg.1, pg.2]] }) (⟨hdr, rs⟩ : Table) =
      (⟨hdr, rs ++ pairs.map fun pg => [pg.1, pg.2]⟩ : Table) := by
  induction pairs generalizing rs with
  | nil => simp
  | cons p ps ih => simp [List.foldl_cons, ih]

/-- C9: rendering a record list (fed as its two projections, the shape
`rag` returns) yields the header `["Predicted", "Ground Truth"]` and
exactly one row per record, in list order, each cell the record field
verbatim. -/
theorem print_result_table_fidelity (records : List (String × String)) :
    (print_result_table (records.map Prod.fst)
        (records.map Prod.snd)).field_names =
      ["Predicted", "Ground Truth"] ∧
    (print_result_table (records.map Prod.fst)
        (records.map Prod.snd)).rows =
      records.map fun r => [r.1, r.2] := by
  have hz : (records.map Prod.fst).zip (records.map Prod.snd) = records := by
    rw [← List.unzip_fst, ← List.unzip_snd, List.zip_unzip]
  rw [print_result_table, hz, print_table_foldl]
  exact ⟨rfl, by simp⟩

/-- C10: the reporter's actual interface takes the two parallel lists
separately, and `zip` silently truncates to the shorter one: the table
always has `min` of the two lengths many rows, with the excess entries of
the longer list dropped and no error value anywhere (the function is
total). -/
theorem print_result_table_truncates (predicted_answers correct_answers :
    List String) :
    (print_result_table predicted_answers correct_answers).field_names =
      ["Predicted", "Ground Truth"] ∧
    (print_result_table predicted_answers correct_answers).rows.length =
      min predicted_answers.length correct_answers.length ∧
    (print_result_table predicted_answers correct_answers).rows =
      (predicted_answers.zip correct_answers).map fun pg => [pg.1, pg.2] := by
  rw [print_result_table, print_table_foldl]
  refine ⟨rfl, ?_, by simp⟩
  simp [List.length_zip]

end HintQA

